import Mathlib

/-!
Verification development for the chess-mistakes-journal application.

The move-index model (`lib/utils/move-math.ts`, `lib/chess/fen-extractor.ts`,
`lib/chess/pgn-parser.ts` / `lib/chess/move-navigator.ts`), the annotation
store (`lib/db/mistakes-repository.ts`, `app/api/mistakes/route.ts`) and the
game store (`lib/db/games-repository.ts`) are embedded as Lean definitions,
and the specification's claims about them are stated and settled as theorems.

The third-party chess engine (chess.js) is external to the repository; it is
modelled abstractly by a `ChessRules` structure carrying a legality oracle and
a board-state (FEN) function, while the engine *instance* is modelled by the
list of moves applied to it since the initial position.  All index
bookkeeping, bounds checks, error construction and state transitions are
translated directly from the repository's source.
-/

namespace ChessJournal

/-- Player color, from `types/chess.ts` (`Color = 'white' | 'black'`). -/
inductive Color where
  | white
  | black
deriving DecidableEq, Repr

/-! ## Move-number arithmetic (`lib/utils/move-math.ts`) -/

/-- `getMoveNumber` from `lib/utils/move-math.ts`:
`Math.floor((moveIndex + 1) / 2)`. -/
def getMoveNumber (moveIndex : Nat) : Nat :=
  (moveIndex + 1) / 2

/-- `isWhiteMove` from `lib/utils/move-math.ts`: `moveIndex % 2 === 1`. -/
def isWhiteMove (moveIndex : Nat) : Bool :=
  moveIndex % 2 == 1

/-- `formatMoveDisplay` from `lib/utils/move-math.ts`: ply `0` displays as
`"Start"`, otherwise `"Move N"` with a `"..."` suffix for Black's plies. -/
def formatMoveDisplay (moveIndex : Nat) : String :=
  if moveIndex == 0 then "Start"
  else
    let moveNum := getMoveNumber moveIndex
    let isWhite := isWhiteMove moveIndex
    "Move " ++ toString moveNum ++ (if isWhite then "" else "...")

/-- The inline move-number computation of the legacy game-viewer page
(`app/games/[id]/page.tsx`, first revision, in `handleAddMistake`,
`getMistakeAtCurrentMove` and the header display):
`Math.floor(currentMoveIndex / 2) + 1`. -/
def legacyViewerMoveNumber (currentMoveIndex : Nat) : Nat :=
  currentMoveIndex / 2 + 1

/-! ## URL-driven navigation to a stored move number
(`app/games/[id]/page.tsx`, the `?move=` effect) -/

/-- The target-ply resolution of the game viewer's `?move=` effect
(`app/games/[id]/page.tsx`): `(moveNum - 1) * 2` for White,
`(moveNum - 1) * 2 + 1` for Black, then `Math.min(targetIndex, moves.length)`. -/
def resolveTargetIndex (moveNum : Int) (playerColor : Color) (movesLen : Nat) : Int :=
  let targetIndex : Int :=
    if playerColor = Color.white then (moveNum - 1) * 2
    else (moveNum - 1) * 2 + 1
  min targetIndex (movesLen : Int)

/-- The guard around the target-ply resolution: the viewer navigates only when
the parsed `move` query parameter is a number greater than zero
(`if (!isNaN(moveNum) && moveNum > 0)`). -/
def navigateFromMoveParam (moveNum : Int) (playerColor : Color) (movesLen : Nat) : Option Int :=
  if 0 < moveNum then some (resolveTargetIndex moveNum playerColor movesLen) else none

/-- Modelled from the spec: `moveNumberAndColorToPly` as §4.2 of the
specification words it, `(moveNumber - 1) * 2 + 1` for White and
`(moveNumber - 1) * 2 + 2` for Black.  This is the spec-side formula kept
solely for comparison against the source-side `resolveTargetIndex`. -/
def moveNumberAndColorToPly (moveNumber : Int) (journalingColor : Color) : Int :=
  if journalingColor = Color.white then (moveNumber - 1) * 2 + 1
  else (moveNumber - 1) * 2 + 2

/-! ## Annotation ("mistake") store
(`types/mistake.ts`, `lib/db/mistakes-repository.ts`, `app/api/mistakes/route.ts`) -/

/-- A row of the `Mistake` table (`prisma/schema` and `types/mistake.ts`). -/
structure MistakeRec where
  id : String
  gameId : String
  moveNumber : Int
  fenPosition : String
  briefDescription : String
  primaryTag : String
  detailedReflection : Option String
deriving DecidableEq, Repr

/-- `CreateMistakeInput` from `types/mistake.ts`. -/
structure CreateMistakeInput where
  gameId : String
  moveNumber : Int
  fenPosition : String
  briefDescription : String
  primaryTag : String
  detailedReflection : Option String
deriving DecidableEq, Repr

/-- `UpdateMistakeInput` from `types/mistake.ts`: only the three mutable text
fields, each optional (absent fields are left untouched by the update). -/
structure UpdateMistakeInput where
  briefDescription : Option String
  primaryTag : Option String
  detailedReflection : Option String
deriving DecidableEq, Repr

/-- The `Mistake` table, rows in insertion order. -/
abbrev MistakeTable := List MistakeRec

/-- Row-id generation by the database (`cuid()` column default), modelled as a
fresh id derived from the current row count. -/
def freshMistakeId (store : MistakeTable) : String :=
  "m" ++ toString store.length

/-- `createMistake` from `lib/db/mistakes-repository.ts`: inserts a row
carrying exactly the supplied field values and returns the created row.
No field is validated here. -/
def createMistake (store : MistakeTable) (input : CreateMistakeInput) :
    MistakeTable × MistakeRec :=
  let row : MistakeRec :=
    ⟨freshMistakeId store, input.gameId, input.moveNumber, input.fenPosition,
      input.briefDescription, input.primaryTag, input.detailedReflection⟩
  (store ++ [row], row)

/-- The data clause of `prisma.mistake.update` in `updateMistake`: only
`briefDescription`, `primaryTag` and `detailedReflection` are written; an
absent (`undefined`) field is skipped by the database client. -/
def applyUpdate (m : MistakeRec) (upd : UpdateMistakeInput) : MistakeRec :=
  ⟨m.id, m.gameId, m.moveNumber, m.fenPosition,
    upd.briefDescription.getD m.briefDescription,
    upd.primaryTag.getD m.primaryTag,
    match upd.detailedReflection with
    | some d => some d
    | none => m.detailedReflection⟩

/-- `updateMistake` from `lib/db/mistakes-repository.ts`: updates the row with
the given id and returns it, or returns `none` when the row does not exist
(the database rejection is caught and converted to `null`). -/
def updateMistake (store : MistakeTable) (id : String) (upd : UpdateMistakeInput) :
    MistakeTable × Option MistakeRec :=
  if store.any (fun m => m.id == id) then
    let store2 := store.map (fun m => if m.id == id then applyUpdate m upd else m)
    (store2, store2.find? (fun m => m.id == id))
  else (store, none)

/-- JavaScript truthiness of an optional string field: absent (`undefined`)
and the empty string are falsy. -/
def truthyStr : Option String → Bool
  | none => false
  | some s => !(s == "")

/-- JavaScript truthiness of an optional numeric field: absent (`undefined`)
and `0` are falsy. -/
def truthyNum : Option Int → Bool
  | none => false
  | some n => !(n == 0)

/-- Request body of `POST /api/mistakes` (`app/api/mistakes/route.ts`), each
field optional because a JSON body may omit it. -/
structure MistakeBody where
  gameId : Option String
  moveNumber : Option Int
  fenPosition : Option String
  briefDescription : Option String
  primaryTag : Option String
  detailedReflection : Option String
deriving DecidableEq, Repr

/-- HTTP response of the `POST /api/mistakes` handler: a status code and the
error message carried by a rejection. -/
structure PostResponse where
  status : Nat
  errMsg : Option String
deriving DecidableEq, Repr

/-- The `POST` handler of `app/api/mistakes/route.ts`: rejects with `400` when
any of `gameId`, `moveNumber`, `fenPosition`, `briefDescription`, `primaryTag`
is falsy (`if (!gameId || !moveNumber || ...)`), otherwise creates the mistake
via `createMistake` and responds `201`. -/
def postMistake (store : MistakeTable) (body : MistakeBody) :
    MistakeTable × PostResponse :=
  if !(truthyStr body.gameId && truthyNum body.moveNumber && truthyStr body.fenPosition &&
       truthyStr body.briefDescription && truthyStr body.primaryTag) then
    (store,
      ⟨400, some "gameId, moveNumber, fenPosition, briefDescription, and primaryTag are required"⟩)
  else
    let input : CreateMistakeInput :=
      ⟨body.gameId.getD "", body.moveNumber.getD 0, body.fenPosition.getD "",
        body.briefDescription.getD "", body.primaryTag.getD "", body.detailedReflection⟩
    ((createMistake store input).1, ⟨201, none⟩)

/-! ## Game store and deletion (`lib/db/games-repository.ts`) -/

/-- A row of the `Game` table (`prisma/schema` and `types/game.ts`). -/
structure GameRec where
  id : String
  pgn : String
  playerColor : Color
  opponentRating : Option Int
  timeControl : Option String
deriving DecidableEq, Repr

/-- The two tables reachable from the repository functions. -/
structure DB where
  games : List GameRec
  mistakes : MistakeTable
deriving DecidableEq, Repr

/-- `prisma.game.delete({ where: { id } })`: removes the row with the given id,
cascading to the game's mistakes per the schema's `onDelete: Cascade`;
rejects when no such row exists. -/
def prismaGameDelete (db : DB) (id : String) : Except String DB :=
  if db.games.any (fun g => g.id == id) then
    Except.ok ⟨db.games.filter (fun g => !(g.id == id)),
               db.mistakes.filter (fun m => !(m.gameId == id))⟩
  else Except.error "Record to delete does not exist."

/-- `deleteGame` from `lib/db/games-repository.ts`: the database's not-found
rejection is swallowed by `.catch(() => {})`, so the call always resolves. -/
def deleteGame (db : DB) (id : String) : Except String DB :=
  match prismaGameDelete db id with
  | Except.ok db2 => Except.ok db2
  | Except.error _ => Except.ok db

/-- `prisma.mistake.delete({ where: { id } })`: removes the row with the given
id; rejects when no such row exists. -/
def prismaMistakeDelete (db : DB) (id : String) : Except String DB :=
  if db.mistakes.any (fun m => m.id == id) then
    Except.ok ⟨db.games, db.mistakes.filter (fun m => !(m.id == id))⟩
  else Except.error "Record to delete does not exist."

/-- `deleteMistake` from `lib/db/mistakes-repository.ts`: the database's
not-found rejection is swallowed by `.catch(() => {})`. -/
def deleteMistake (db : DB) (id : String) : Except String DB :=
  match prismaMistakeDelete db id with
  | Except.ok db2 => Except.ok db2
  | Except.error _ => Except.ok db

/-! ## Abstract chess engine (chess.js, external to the repository)

The engine's rules are abstracted into a `ChessRules` oracle; an engine
*instance* (`new Chess()`) is identified with the list of SAN moves applied
to it since the initial position, which is the only part of its state the
repository ever feeds back into its own logic. -/

/-- The rules-oracle abstraction of chess.js: which SAN string is accepted
after a given applied-move sequence, the board-state (FEN) string of the
position reached by a sequence, and the message of the rejection an illegal
move raises. -/
structure ChessRules where
  legalSan : List String → String → Bool
  fenOf : List String → String
  moveErrMsg : List String → String → String

/-- A chess.js `Chess` instance: the moves applied since the initial
position. -/
structure Chess where
  applied : List String
deriving DecidableEq, Repr

/-- `new Chess()`: a fresh instance at the initial position. -/
def Chess.new : Chess := ⟨[]⟩

/-- `chess.move(san)`: appends the move when the rules accept it, otherwise
rejects (chess.js throws). -/
def Chess.move (R : ChessRules) (c : Chess) (san : String) : Option Chess :=
  if R.legalSan c.applied san then some ⟨c.applied ++ [san]⟩ else none

/-- `chess.fen()`: the board-state string of the current position. -/
def Chess.fen (R : ChessRules) (c : Chess) : String :=
  R.fenOf c.applied

/-- `chess.reset()`: back to the initial position. -/
def Chess.reset (_c : Chess) : Chess := ⟨[]⟩

/-- `chess.undo()`: pops the most recent move, or returns `null` at the
initial position. -/
def Chess.undo (c : Chess) : Option Chess :=
  if c.applied.isEmpty then none else some ⟨c.applied.dropLast⟩

/-- The canonical initial position (`STARTING_FEN` in `types/chess.ts`). -/
def STARTING_FEN : String :=
  "rnbqkbnr/pppppppp/8/8/8/8/PPPPPPPP/RNBQKBNR w KQkq - 0 1"

/-- A parsed move, from `types/chess.ts` (`Move`).  `extractFEN` and the
navigator read only `san`; the remaining metadata fields are carried along
as parsed. -/
structure Move where
  fromSq : String
  toSq : String
  piece : String
  color : Color
  san : String
  captured : Option String
  promotion : Option String
  flags : String
deriving DecidableEq, Repr

/-- `ParsedGame` from `types/chess.ts`. -/
structure ParsedGame where
  headers : List (String × String)
  moves : List Move
  result : String
deriving DecidableEq, Repr

/-- The SAN strings of a move list. -/
def sansOf (ms : List Move) : List String :=
  ms.map Move.san

/-- Whether every move of a list is accepted by the rules when replayed in
order after the already-applied sequence `done`.  A `ParsedGame` produced by
`parsePGN` satisfies this from `done = []`, since its move list is the
history of a successful `chess.loadPgn`. -/
def replaysOkFrom (R : ChessRules) (done : List String) : List Move → Bool
  | [] => true
  | m :: rest => R.legalSan done m.san && replaysOkFrom R (done ++ [m.san]) rest

/-- Validity of a stored game: its move list replays cleanly from the initial
position. -/
def replaysOk (R : ChessRules) (g : ParsedGame) : Bool :=
  replaysOkFrom R [] g.moves

/-! ## FEN extraction (`lib/chess/fen-extractor.ts`) -/

/-- The replay loop of `extractFEN`: applies each move to the fresh instance;
a rejected move aborts with the `Failed to replay move ...` message built from
the one-based index, the SAN text and the engine's message. -/
def replayFrom (R : ChessRules) (c : Chess) (idx : Nat) : List Move → Except String Chess
  | [] => Except.ok c
  | m :: rest =>
    match Chess.move R c m.san with
    | some c2 => replayFrom R c2 (idx + 1) rest
    | none =>
      Except.error ("Failed to replay move " ++ toString (idx + 1) ++ " (" ++ m.san ++ "): " ++
        R.moveErrMsg c.applied m.san)

/-- `extractFEN` from `lib/chess/fen-extractor.ts`.  Bounds are checked first
(negative, then exceeding the move count), ply `0` short-circuits to
`STARTING_FEN`, and otherwise a fresh instance replays the first `moveNumber`
moves and reports its FEN.  Thrown `FENExtractionError`s are modelled as
`Except.error` carrying the message. -/
def extractFEN (R : ChessRules) (game : ParsedGame) (moveNumber : Int) : Except String String :=
  if moveNumber < 0 then
    Except.error "Move number must be non-negative"
  else if (game.moves.length : Int) < moveNumber then
    Except.error ("Move number " ++ toString moveNumber ++ " exceeds total moves (" ++
      toString game.moves.length ++ ")")
  else if moveNumber = 0 then
    Except.ok STARTING_FEN
  else
    (replayFrom R Chess.new 0 (game.moves.take moveNumber.toNat)).map (Chess.fen R)

/-! ## Move navigator (`lib/chess/move-navigator.ts`) -/

/-- The navigator's state: the fixed parsed game, the incremental engine
instance, and the current ply index (`currentMoveIndex`, `0` = start). -/
structure MoveNavigator where
  game : ParsedGame
  chess : Chess
  currentMoveIndex : Nat
deriving DecidableEq, Repr

/-- `new MoveNavigator(game)`: fresh engine, ply `0`. -/
def MoveNavigator.new (g : ParsedGame) : MoveNavigator :=
  ⟨g, Chess.new, 0⟩

/-- `getTotalMoves()`. -/
def MoveNavigator.getTotalMoves (nav : MoveNavigator) : Nat :=
  nav.game.moves.length

/-- `getCurrentFEN()`: the FEN of the incremental instance. -/
def MoveNavigator.getCurrentFEN (R : ChessRules) (nav : MoveNavigator) : String :=
  Chess.fen R nav.chess

/-- `next()`: refuses at the end; otherwise applies the next move to the
incremental instance and advances the index (a rejected move leaves the
navigator unchanged and reports failure). -/
def MoveNavigator.next (R : ChessRules) (nav : MoveNavigator) : MoveNavigator × Bool :=
  if h : nav.currentMoveIndex < nav.game.moves.length then
    match Chess.move R nav.chess (nav.game.moves[nav.currentMoveIndex]).san with
    | some c2 => (⟨nav.game, c2, nav.currentMoveIndex + 1⟩, true)
    | none => (nav, false)
  else (nav, false)

/-- `previous()`: refuses at the start; otherwise undoes the engine's last
move and decrements the index (a failed undo leaves the navigator
unchanged). -/
def MoveNavigator.previous (nav : MoveNavigator) : MoveNavigator × Bool :=
  if nav.currentMoveIndex = 0 then (nav, false)
  else
    match Chess.undo nav.chess with
    | some c2 => (⟨nav.game, c2, nav.currentMoveIndex - 1⟩, true)
    | none => (nav, false)

/-- The replay loop of `goToMove`: starting from the reset instance and index
`0`, applies moves one at a time, incrementing the index with each success;
a rejected move aborts the loop. -/
def goToMoveLoop (R : ChessRules) (c : Chess) (idx : Nat) : List Move → Option (Chess × Nat)
  | [] => some (c, idx)
  | m :: rest =>
    match Chess.move R c m.san with
    | some c2 => goToMoveLoop R c2 (idx + 1) rest
    | none => none

/-- `goToMove(moveNumber)`: out-of-range targets are refused up front with the
state untouched; otherwise the instance is reset and the first `moveNumber`
moves are replayed (a replay failure resets the navigator to the start and
reports failure). -/
def MoveNavigator.goToMove (R : ChessRules) (nav : MoveNavigator) (moveNumber : Int) :
    MoveNavigator × Bool :=
  if moveNumber < 0 ∨ (nav.game.moves.length : Int) < moveNumber then (nav, false)
  else
    match goToMoveLoop R Chess.new 0 (nav.game.moves.take moveNumber.toNat) with
    | some (c, idx) => (⟨nav.game, c, idx⟩, true)
    | none => (⟨nav.game, Chess.new, 0⟩, false)

/-- `goToStart()`. -/
def MoveNavigator.goToStart (nav : MoveNavigator) : MoveNavigator :=
  ⟨nav.game, Chess.reset nav.chess, 0⟩

/-- `goToEnd()`: `goToMove(moves.length)`, result discarded. -/
def MoveNavigator.goToEnd (R : ChessRules) (nav : MoveNavigator) : MoveNavigator :=
  (MoveNavigator.goToMove R nav (nav.game.moves.length : Int)).1

/-- `isAtStart()`. -/
def MoveNavigator.isAtStart (nav : MoveNavigator) : Bool :=
  nav.currentMoveIndex == 0

/-- `isAtEnd()`. -/
def MoveNavigator.isAtEnd (nav : MoveNavigator) : Bool :=
  nav.currentMoveIndex == nav.game.moves.length

/-- `canGoForward()`. -/
def MoveNavigator.canGoForward (nav : MoveNavigator) : Bool :=
  decide (nav.currentMoveIndex < nav.game.moves.length)

/-- `canGoBackward()`. -/
def MoveNavigator.canGoBackward (nav : MoveNavigator) : Bool :=
  decide (0 < nav.currentMoveIndex)

/-- The navigator's public operations, for stating properties over arbitrary
interaction sequences. -/
inductive NavOp where
  | advance
  | retreat
  | seek (i : Int)
  | toStart
  | toEnd
deriving DecidableEq, Repr

/-- One cursor operation applied to the navigator state. -/
def runOp (R : ChessRules) (nav : MoveNavigator) : NavOp → MoveNavigator
  | NavOp.advance => (MoveNavigator.next R nav).1
  | NavOp.retreat => nav.previous.1
  | NavOp.seek i => (MoveNavigator.goToMove R nav i).1
  | NavOp.toStart => nav.goToStart
  | NavOp.toEnd => nav.goToEnd R

/-- A sequence of cursor operations. -/
def runOps (R : ChessRules) (nav : MoveNavigator) : List NavOp → MoveNavigator
  | [] => nav
  | op :: rest => runOps R (runOp R nav op) rest

/-! ## Concrete fixtures for evaluation -/

/-- A permissive rules oracle for concrete evaluation: every SAN is accepted
and the board-state of a position is the start FEN followed by the applied
moves (distinct positions get distinct strings). -/
def demoRules : ChessRules :=
  ⟨fun _ _ => true,
   fun sans => List.foldl (fun acc s => acc ++ " " ++ s) STARTING_FEN sans,
   fun _ _ => "Invalid move"⟩

/-- A move carrying only its SAN text (the metadata fields are irrelevant to
the operations under study). -/
def mkMove (san : String) (c : Color) : Move :=
  ⟨"", "", "p", c, san, none, none, ""⟩

/-- The specification's three-ply scenario list `["e4", "e5", "Nf3"]`. -/
def demoGame : ParsedGame :=
  ⟨[], [mkMove "e4" Color.white, mkMove "e5" Color.black, mkMove "Nf3" Color.white], "*"⟩

/-! ## Substring occurrence, for reasoning about error-message contents -/

/-- Does the first character list begin with the second? -/
def beginsWith : List Char → List Char → Bool
  | _, [] => true
  | [], _ :: _ => false
  | c :: cs, d :: ds => c == d && beginsWith cs ds

/-- Does the first character list contain the second as a contiguous run? -/
def hasChunk : List Char → List Char → Bool
  | [], sub => beginsWith [] sub
  | c :: cs, sub => beginsWith (c :: cs) sub || hasChunk cs sub

/-- Whether a message string mentions the decimal rendering of an integer. -/
def msgMentionsInt (msg : String) (n : Int) : Bool :=
  hasChunk msg.toList (toString n).toList

/-- Whether a message string mentions the decimal rendering of a natural
number. -/
def msgMentionsNat (msg : String) (n : Nat) : Bool :=
  hasChunk msg.toList (toString n).toList

theorem beginsWith_nil (l : List Char) : beginsWith l [] = true := by
  cases l <;> rfl

theorem beginsWith_append (x b : List Char) : beginsWith (x ++ b) x = true := by
  induction x with
  | nil => exact beginsWith_nil b
  | cons c cs ih => simp [beginsWith, ih]

theorem hasChunk_append_left (a t x : List Char) (h : hasChunk t x = true) :
    hasChunk (a ++ t) x = true := by
  induction a with
  | nil => simpa using h
  | cons c cs ih => simp [hasChunk, ih]

theorem hasChunk_self_append (x b : List Char) : hasChunk (x ++ b) x = true := by
  cases x with
  | nil => cases b <;> simp [hasChunk, beginsWith_nil]
  | cons c cs =>
    have hb := beginsWith_append (c :: cs) b
    simp only [hasChunk, Bool.or_eq_true]
    exact Or.inl hb

theorem msgMentionsInt_decomp (pre post : String) (n : Int) :
    msgMentionsInt (pre ++ (toString n ++ post)) n = true := by
  show hasChunk (pre ++ (toString n ++ post)).data (toString n).data = true
  rw [String.data_append pre (toString n ++ post),
    String.data_append (toString n) post]
  exact hasChunk_append_left _ _ _ (hasChunk_self_append _ _)

theorem msgMentionsNat_decomp (pre post : String) (n : Nat) :
    msgMentionsNat (pre ++ (toString n ++ post)) n = true := by
  show hasChunk (pre ++ (toString n ++ post)).data (toString n).data = true
  rw [String.data_append pre (toString n ++ post),
    String.data_append (toString n) post]
  exact hasChunk_append_left _ _ _ (hasChunk_self_append _ _)

/-! ## Claim C1 — resolving a stored move number back to a ply index -/

/-- C1, counterexample.  The claim states the resolved ply index for the
journaling player's own move `N` is `(N - 1) * 2 + 1` for White and
`(N - 1) * 2 + 2` for Black (so move 2 with a Black journaling player
resolves to ply 4); the game viewer's `?move=` effect instead computes
`(N - 1) * 2` for White and `(N - 1) * 2 + 1` for Black, resolving that
example to ply 3. -/
theorem resolveTargetIndex_offset_cx :
    navigateFromMoveParam 2 Color.black 10 = some 3 ∧
    moveNumberAndColorToPly 2 Color.black = 4 ∧
    resolveTargetIndex 2 Color.black 10 ≠ moveNumberAndColorToPly 2 Color.black := by
  refine ⟨rfl, rfl, ?_⟩
  decide

/-- C1, amended.  For every move number `N ≥ 1`, the viewer resolves the ply
index `(N - 1) * 2` for a White journaling player and `(N - 1) * 2 + 1` for a
Black one — one ply less than the specification's `moveNumberAndColorToPly` —
and the result is clamped from above to `totalPlies` (a target beyond the end
of the game becomes the final ply, not an error) and is never negative. -/
theorem resolveTargetIndex_spec (moveNum : Int) (h : 1 ≤ moveNum) (c : Color) (movesLen : Nat) :
    navigateFromMoveParam moveNum c movesLen = some (resolveTargetIndex moveNum c movesLen) ∧
    resolveTargetIndex moveNum c movesLen =
      min (moveNumberAndColorToPly moveNum c - 1) (movesLen : Int) ∧
    0 ≤ resolveTargetIndex moveNum c movesLen ∧
    resolveTargetIndex moveNum c movesLen ≤ (movesLen : Int) := by
  refine ⟨?_, ?_, ?_, ?_⟩
  · unfold navigateFromMoveParam
    rw [if_pos (by omega)]
  · unfold resolveTargetIndex moveNumberAndColorToPly
    cases c
    all_goals
      simp
      try ring_nf
  · cases c
    all_goals
      simp only [resolveTargetIndex]
      simp only [reduceCtorEq, if_true, if_false, reduceIte]
      apply le_min <;> omega
  · cases c
    all_goals
      simp only [resolveTargetIndex]
      exact min_le_right _ _

/-- C1, witness: the amended theorem applied at move 2, Black, 10 plies. -/
theorem resolveTargetIndex_spec_witness :
    navigateFromMoveParam 2 Color.black 10 = some (resolveTargetIndex 2 Color.black 10) ∧
    resolveTargetIndex 2 Color.black 10 =
      min (moveNumberAndColorToPly 2 Color.black - 1) (10 : Int) ∧
    0 ≤ resolveTargetIndex 2 Color.black 10 ∧
    resolveTargetIndex 2 Color.black 10 ≤ (10 : Int) := by
  have h := resolveTargetIndex_spec 2 (by decide) Color.black 10
  simpa using h

/-! ## Claim C3 — ply index to displayed move number -/

/-- C3, counterexample.  The claim states every call site converting a ply
index to a move number computes `⌊(i + 1) / 2⌋`; the legacy game-viewer page
computes `⌊i / 2⌋ + 1` inline, which disagrees at ply 2 (value 2 instead
of 1). -/
theorem moveNumber_call_sites_cx :
    getMoveNumber 2 = 1 ∧ legacyViewerMoveNumber 2 = 2 ∧
    legacyViewerMoveNumber 2 ≠ getMoveNumber 2 := by
  decide

/-- C3, amended.  For every ply index `i ≥ 1` the centralized conversion
computes `⌊(i + 1) / 2⌋` (in particular 1, 1, 2 at plies 1, 2, 3), ply 0
displays as the sentinel `"Start"`, and the display shows that same value for
`i ≥ 1`; however the legacy viewer's inline conversion computes `⌊i / 2⌋ + 1`,
which agrees with the centralized one exactly at odd ply indexes. -/
theorem moveNumber_display_spec (i : Nat) (h : 1 ≤ i) :
    getMoveNumber i = (i + 1) / 2 ∧
    getMoveNumber 1 = 1 ∧ getMoveNumber 2 = 1 ∧ getMoveNumber 3 = 2 ∧
    formatMoveDisplay 0 = "Start" ∧
    formatMoveDisplay i =
      "Move " ++ toString (getMoveNumber i) ++ (if isWhiteMove i then "" else "...") ∧
    legacyViewerMoveNumber i = i / 2 + 1 ∧
    (legacyViewerMoveNumber i = getMoveNumber i ↔ i % 2 = 1) := by
  refine ⟨rfl, rfl, rfl, rfl, rfl, ?_, rfl, ?_⟩
  · unfold formatMoveDisplay
    rw [if_neg (by simp; omega)]
  · unfold legacyViewerMoveNumber getMoveNumber
    omega

/-- C3, witness: the amended theorem applied at ply 3. -/
theorem moveNumber_display_spec_witness :
    getMoveNumber 3 = (3 + 1) / 2 ∧
    formatMoveDisplay 3 = "Move " ++ toString (getMoveNumber 3) ++ "" ∧
    (legacyViewerMoveNumber 3 = getMoveNumber 3 ↔ 3 % 2 = 1) := by
  have h := moveNumber_display_spec 3 (by decide)
  refine ⟨h.1, ?_, h.2.2.2.2.2.2.2⟩
  have h6 := h.2.2.2.2.2.1
  simpa [isWhiteMove] using h6

/-! ## Claim C9 — the creation endpoint treats a zero move number as absent -/

/-- C9.  A `POST /api/mistakes` body whose `moveNumber` is `0` fails the JS
truthiness presence check, so the handler responds `400` with the
missing-required-field message and stores nothing: an annotation at ply 0 can
never be created through this endpoint. -/
theorem postMistake_zero_rejected (store : MistakeTable) (body : MistakeBody)
    (h : body.moveNumber = some 0) :
    postMistake store body =
      (store,
        ⟨400,
          some "gameId, moveNumber, fenPosition, briefDescription, and primaryTag are required"⟩) := by
  unfold postMistake
  rw [if_pos]
  simp [truthyNum, h]

/-- C9, witness: a fully-populated body with `moveNumber = 0` is rejected and
the store is unchanged. -/
theorem postMistake_zero_rejected_witness :
    postMistake [] ⟨some "g1", some 0, some "fen", some "desc", some "tag", none⟩ =
      ([],
        ⟨400,
          some "gameId, moveNumber, fenPosition, briefDescription, and primaryTag are required"⟩) :=
  postMistake_zero_rejected [] ⟨some "g1", some 0, some "fen", some "desc", some "tag", none⟩ rfl

/-! ## Claim C2 — the ply-index bound at annotation creation -/

/-- C2, counterexample.  The claim states `0 ≤ plyIndex ≤ totalPlies` is
enforced at annotation creation time; in fact neither the endpoint nor
`createMistake` checks any bound, so a request with `moveNumber = -1` (truthy
in JS) is accepted with status `201` and a row with negative `plyIndex`
becomes reachable through the store. -/
theorem creation_bound_unenforced_cx :
    (postMistake [] ⟨some "g1", some (-1), some "fen", some "desc", some "tag", none⟩).2.status
        = 201 ∧
    (postMistake [] ⟨some "g1", some (-1), some "fen", some "desc", some "tag", none⟩).1 =
      [⟨"m0", "g1", -1, "fen", "desc", "tag", none⟩] ∧
    ¬ (0 : Int) ≤ -1 := by
  refine ⟨rfl, rfl, by decide⟩

/-- C2, amended.  The store does not enforce `0 ≤ plyIndex ≤ totalPlies` at
creation: `createMistake` stores the supplied `plyIndex` verbatim (any
integer the endpoint's truthiness check lets through).  What does hold
permanently is immutability: an update rewrites only the three text fields,
so every row keeps the `plyIndex` (and id) it was created with. -/
theorem storedPly_immutable (store : MistakeTable) (input : CreateMistakeInput)
    (id : String) (upd : UpdateMistakeInput) :
    (createMistake store input).2.moveNumber = input.moveNumber ∧
    (createMistake store input).1 = store ++ [(createMistake store input).2] ∧
    (updateMistake store id upd).1.map MistakeRec.moveNumber =
      store.map MistakeRec.moveNumber ∧
    (updateMistake store id upd).1.map MistakeRec.id = store.map MistakeRec.id := by
  refine ⟨rfl, rfl, ?_, ?_⟩
  · unfold updateMistake
    split
    · simp only [List.map_map]
      refine List.map_congr_left ?_
      intro m _
      by_cases hm : m.id = id <;> simp [hm, applyUpdate]
    · rfl
  · unfold updateMistake
    split
    · simp only [List.map_map]
      refine List.map_congr_left ?_
      intro m _
      by_cases hm : m.id = id <;> simp [hm, applyUpdate]
    · rfl

/-! ## Claim C10 — deletion is idempotent at the repository interface -/

theorem any_filter_neg {α : Type} (l : List α) (p : α → Bool) :
    (l.filter (fun x => !(p x))).any p = false := by
  induction l with
  | nil => rfl
  | cons a t ih => by_cases h : p a = true <;> simp [List.filter_cons, h, ih]

/-- C10.  `deleteGame` and `deleteMistake` swallow the database's not-found
rejection, so for every id the first delete resolves without error and a
second delete of the same id resolves as well, leaving the store as the
first delete left it; deleting a missing id is a no-op that still succeeds. -/
theorem delete_idempotent (db : DB) (id : String) :
    (∃ db1, deleteGame db id = Except.ok db1 ∧ deleteGame db1 id = Except.ok db1) ∧
    (∃ db2, deleteMistake db id = Except.ok db2 ∧ deleteMistake db2 id = Except.ok db2) ∧
    (db.games.any (fun g => g.id == id) = false → deleteGame db id = Except.ok db) ∧
    (db.mistakes.any (fun m => m.id == id) = false → deleteMistake db id = Except.ok db) := by
  refine ⟨?_, ?_, ?_, ?_⟩
  · by_cases h : db.games.any (fun g => g.id == id) = true
    · refine ⟨⟨db.games.filter (fun g => !(g.id == id)),
        db.mistakes.filter (fun m => !(m.gameId == id))⟩, ?_, ?_⟩
      · unfold deleteGame prismaGameDelete
        rw [if_pos h]
      · unfold deleteGame prismaGameDelete
        rw [if_neg (by simp [any_filter_neg])]
    · refine ⟨db, ?_, ?_⟩ <;>
        · unfold deleteGame prismaGameDelete
          rw [if_neg (by simpa using h)]
  · by_cases h : db.mistakes.any (fun m => m.id == id) = true
    · refine ⟨⟨db.games, db.mistakes.filter (fun m => !(m.id == id))⟩, ?_, ?_⟩
      · unfold deleteMistake prismaMistakeDelete
        rw [if_pos h]
      · unfold deleteMistake prismaMistakeDelete
        rw [if_neg (by simp [any_filter_neg])]
    · refine ⟨db, ?_, ?_⟩ <;>
        · unfold deleteMistake prismaMistakeDelete
          rw [if_neg (by simpa using h)]
  · intro h
    unfold deleteGame prismaGameDelete
    rw [if_neg (by simp [h])]
  · intro h
    unfold deleteMistake prismaMistakeDelete
    rw [if_neg (by simp [h])]

/-- C10, witness: deleting a missing game id and a missing mistake id from a
one-game store succeeds both times. -/
theorem delete_idempotent_witness :
    (∃ db1, deleteGame ⟨[⟨"g1", "1. e4", Color.white, none, none⟩], []⟩ "gX" = Except.ok db1 ∧
      deleteGame db1 "gX" = Except.ok db1) ∧
    deleteGame ⟨[⟨"g1", "1. e4", Color.white, none, none⟩], []⟩ "gX" =
      Except.ok ⟨[⟨"g1", "1. e4", Color.white, none, none⟩], []⟩ := by
  have h := delete_idempotent ⟨[⟨"g1", "1. e4", Color.white, none, none⟩], []⟩ "gX"
  exact ⟨h.1, h.2.2.1 (by decide)⟩

/-! ## Replay lemmas -/

theorem replaysOkFrom_take (R : ChessRules) (done : List String) (ms : List Move) (k : Nat)
    (h : replaysOkFrom R done ms = true) : replaysOkFrom R done (ms.take k) = true := by
  induction ms generalizing done k with
  | nil => simp [List.take_nil, replaysOkFrom]
  | cons m rest ih =>
    cases k with
    | zero => rfl
    | succ k =>
      simp only [List.take_succ_cons]
      unfold replaysOkFrom at h ⊢
      rw [Bool.and_eq_true] at h ⊢
      exact ⟨h.1, ih _ _ h.2⟩

theorem replayFrom_ok (R : ChessRules) (done : List String) (idx : Nat) (ms : List Move)
    (h : replaysOkFrom R done ms = true) :
    replayFrom R ⟨done⟩ idx ms = Except.ok ⟨done ++ sansOf ms⟩ := by
  induction ms generalizing done idx with
  | nil => simp [replayFrom, sansOf]
  | cons m rest ih =>
    unfold replaysOkFrom at h
    rw [Bool.and_eq_true] at h
    unfold replayFrom
    rw [show Chess.move R ⟨done⟩ m.san = some ⟨done ++ [m.san]⟩ from by
      simp [Chess.move, h.1]]
    show replayFrom R ⟨done ++ [m.san]⟩ (idx + 1) rest = Except.ok ⟨done ++ sansOf (m :: rest)⟩
    rw [ih (done ++ [m.san]) (idx + 1) h.2]
    simp [sansOf]

theorem goToMoveLoop_ok (R : ChessRules) (done : List String) (idx : Nat) (ms : List Move)
    (h : replaysOkFrom R done ms = true) :
    goToMoveLoop R ⟨done⟩ idx ms = some (⟨done ++ sansOf ms⟩, idx + ms.length) := by
  induction ms generalizing done idx with
  | nil => simp [goToMoveLoop, sansOf]
  | cons m rest ih =>
    unfold replaysOkFrom at h
    rw [Bool.and_eq_true] at h
    unfold goToMoveLoop
    rw [show Chess.move R ⟨done⟩ m.san = some ⟨done ++ [m.san]⟩ from by
      simp [Chess.move, h.1]]
    show goToMoveLoop R ⟨done ++ [m.san]⟩ (idx + 1) rest =
      some (⟨done ++ sansOf (m :: rest)⟩, idx + (m :: rest).length)
    rw [ih (done ++ [m.san]) (idx + 1) h.2]
    simp [sansOf]
    omega

/-- The value `extractFEN` returns on an in-range ply of a cleanly-replaying
game: the start FEN at ply 0, otherwise the engine's FEN of the replayed
prefix. -/
theorem extractFEN_ok_val (R : ChessRules) (g : ParsedGame) (i : Int)
    (h0 : 0 ≤ i) (h1 : i ≤ (g.moves.length : Int)) (hv : replaysOk R g = true) :
    extractFEN R g i =
      Except.ok (if i = 0 then STARTING_FEN else R.fenOf (sansOf (g.moves.take i.toNat))) := by
  unfold extractFEN
  rw [if_neg (by omega), if_neg (by omega)]
  by_cases h : i = 0
  · rw [if_pos h, if_pos h]
  · rw [if_neg h, if_neg h]
    have htake : replaysOkFrom R [] (g.moves.take i.toNat) = true :=
      replaysOkFrom_take R [] g.moves i.toNat hv
    rw [show Chess.new = (⟨[]⟩ : Chess) from rfl]
    rw [replayFrom_ok R [] 0 _ htake]
    simp [Except.map, Chess.fen]

/-! ## Claim C4 — `positionAt` failure behavior and error messages -/

/-- C4, counterexample.  The claim states every out-of-range failure's message
reports both the requested index and the valid total; the negative-index
failure carries the fixed message `"Move number must be non-negative"`, which
mentions neither the requested index `-1` nor the total `3`. -/
theorem extractFEN_neg_report_cx :
    extractFEN demoRules demoGame (-1) = Except.error "Move number must be non-negative" ∧
    msgMentionsInt "Move number must be non-negative" (-1) = false ∧
    msgMentionsNat "Move number must be non-negative" demoGame.moves.length = false := by
  refine ⟨rfl, by decide, by decide⟩

/-- C4, amended.  On a cleanly-replaying game, `extractFEN` fails exactly when
`plyIndex < 0` or `plyIndex > totalPlies` (otherwise it returns a full
position, never a partial one); the over-the-end failure's message reports
both the requested index and the valid total, while the negative-index
failure carries a fixed non-negativity message. -/
theorem extractFEN_range_spec (R : ChessRules) (g : ParsedGame) (hv : replaysOk R g = true)
    (i : Int) :
    ((∃ msg, extractFEN R g i = Except.error msg) ↔ (i < 0 ∨ (g.moves.length : Int) < i)) ∧
    (i < 0 → extractFEN R g i = Except.error "Move number must be non-negative") ∧
    ((g.moves.length : Int) < i →
      ∃ msg, extractFEN R g i = Except.error msg ∧
        msgMentionsInt msg i = true ∧ msgMentionsNat msg g.moves.length = true) := by
  have hneg : i < 0 → extractFEN R g i = Except.error "Move number must be non-negative" := by
    intro h
    unfold extractFEN
    rw [if_pos h]
  have hbig : (g.moves.length : Int) < i →
      extractFEN R g i = Except.error ("Move number " ++ toString i ++
        " exceeds total moves (" ++ toString g.moves.length ++ ")") := by
    intro h
    unfold extractFEN
    rw [if_neg (by omega), if_pos h]
  refine ⟨⟨?_, ?_⟩, hneg, ?_⟩
  · rintro ⟨msg, hmsg⟩
    by_contra hc
    push_neg at hc
    rw [extractFEN_ok_val R g i (by omega) (by omega) hv] at hmsg
    exact Except.noConfusion hmsg
  · rintro (h | h)
    · exact ⟨_, hneg h⟩
    · exact ⟨_, hbig h⟩
  · intro h
    refine ⟨_, hbig h, ?_, ?_⟩
    · show hasChunk ("Move number " ++ toString i ++ " exceeds total moves (" ++
        toString g.moves.length ++ ")").data (toString i).data = true
      simp only [String.data_append, List.append_assoc]
      exact hasChunk_append_left _ _ _ (hasChunk_self_append _ _)
    · show hasChunk ("Move number " ++ toString i ++ " exceeds total moves (" ++
        toString g.moves.length ++ ")").data (toString g.moves.length).data = true
      simp only [String.data_append, List.append_assoc]
      exact hasChunk_append_left _ _ _ (hasChunk_append_left _ _ _
        (hasChunk_append_left _ _ _ (hasChunk_self_append _ _)))

/-- C4, witness: the amended theorem applied at ply `-1` of the three-ply
scenario game. -/
theorem extractFEN_range_spec_witness :
    extractFEN demoRules demoGame (-1) = Except.error "Move number must be non-negative" :=
  (extractFEN_range_spec demoRules demoGame (by decide) (-1)).2.1 (by decide)

/-! ## Claim C5 — `positionAt` is deterministic and stateless -/

/-- C5.  On a cleanly-replaying game and an in-range ply: two calls of
`extractFEN` with the same arguments are identical (the function is pure
because each call replays in a fresh instance, never in shared engine
state); a full position is always returned; ply 0 yields the canonical
initial position for *every* rules oracle, i.e. without consulting the
engine; and the result depends only on the replayed prefix of the move
list. -/
theorem extractFEN_deterministic (R : ChessRules) (g : ParsedGame) (i : Int)
    (h0 : 0 ≤ i) (h1 : i ≤ (g.moves.length : Int)) (hv : replaysOk R g = true) :
    extractFEN R g i = extractFEN R g i ∧
    (∃ fen, extractFEN R g i = Except.ok fen) ∧
    (∀ R2 : ChessRules, extractFEN R2 g 0 = Except.ok STARTING_FEN) ∧
    (∀ g2 : ParsedGame, replaysOk R g2 = true → i ≤ (g2.moves.length : Int) →
      g2.moves.take i.toNat = g.moves.take i.toNat →
      extractFEN R g2 i = extractFEN R g i) := by
  refine ⟨rfl, ⟨_, extractFEN_ok_val R g i h0 h1 hv⟩, ?_, ?_⟩
  · intro R2
    unfold extractFEN
    rw [if_neg (by omega), if_neg (by omega), if_pos rfl]
  · intro g2 hv2 h12 htake
    rw [extractFEN_ok_val R g2 i h0 h12 hv2, extractFEN_ok_val R g i h0 h1 hv, htake]

/-- C5, witness: the determinism theorem applied to the three-ply scenario
game, projected to the engine-independent ply-0 value. -/
theorem extractFEN_deterministic_witness :
    extractFEN demoRules demoGame 0 = Except.ok STARTING_FEN :=
  (extractFEN_deterministic demoRules demoGame 3 (by decide) (by decide)
    (by decide)).2.2.1 demoRules

/-! ## Navigator lemmas -/

/-- On a cleanly-replaying move list, the move at every position is accepted
after the replay of the positions before it. -/
theorem legalSan_at (R : ChessRules) (done : List String) (ms : List Move)
    (h : replaysOkFrom R done ms = true) (idx : Nat) (hidx : idx < ms.length) :
    R.legalSan (done ++ sansOf (ms.take idx)) (ms[idx]).san = true := by
  induction ms generalizing done idx with
  | nil => simp at hidx
  | cons m rest ih =>
    unfold replaysOkFrom at h
    rw [Bool.and_eq_true] at h
    cases idx with
    | zero => simpa [sansOf] using h.1
    | succ k =>
      have hk := ih (done ++ [m.san]) h.2 k (by simpa using hidx)
      simpa [sansOf, List.append_assoc] using hk

/-- The navigator's intended state invariant: the incremental engine instance
holds exactly the replayed prefix of the game, and the index is in bounds.
It holds for a freshly-constructed navigator and is preserved by every
operation. -/
def MoveNavigator.Wf (nav : MoveNavigator) : Prop :=
  nav.chess = ⟨sansOf (nav.game.moves.take nav.currentMoveIndex)⟩ ∧
  nav.currentMoveIndex ≤ nav.game.moves.length

theorem next_spec (R : ChessRules) (nav : MoveNavigator)
    (hv : replaysOk R nav.game = true) (hw : nav.Wf) :
    (nav.currentMoveIndex < nav.game.moves.length →
      MoveNavigator.next R nav =
        (⟨nav.game, ⟨sansOf (nav.game.moves.take (nav.currentMoveIndex + 1))⟩,
          nav.currentMoveIndex + 1⟩, true)) ∧
    (nav.game.moves.length ≤ nav.currentMoveIndex → MoveNavigator.next R nav = (nav, false)) := by
  constructor
  · intro h
    have hleg : R.legalSan (sansOf (nav.game.moves.take nav.currentMoveIndex))
        (nav.game.moves[nav.currentMoveIndex]).san = true := by
      simpa using legalSan_at R [] nav.game.moves hv nav.currentMoveIndex h
    have htake : nav.game.moves.take (nav.currentMoveIndex + 1) =
        nav.game.moves.take nav.currentMoveIndex ++ [nav.game.moves[nav.currentMoveIndex]] := by
      rw [List.take_succ, List.getElem?_eq_getElem h]
      rfl
    unfold MoveNavigator.next
    rw [dif_pos h, hw.1]
    rw [show Chess.move R ⟨sansOf (nav.game.moves.take nav.currentMoveIndex)⟩
        (nav.game.moves[nav.currentMoveIndex]).san =
        some ⟨sansOf (nav.game.moves.take nav.currentMoveIndex) ++
          [(nav.game.moves[nav.currentMoveIndex]).san]⟩ from by
      simp [Chess.move, hleg]]
    have hsan : sansOf (nav.game.moves.take nav.currentMoveIndex ++
        [nav.game.moves[nav.currentMoveIndex]]) =
        sansOf (nav.game.moves.take nav.currentMoveIndex) ++
          [(nav.game.moves[nav.currentMoveIndex]).san] := by
      simp only [sansOf, List.map_append, List.map_cons, List.map_nil]
    rw [htake, hsan]
  · intro h
    unfold MoveNavigator.next
    rw [dif_neg (by omega)]

theorem previous_spec (nav : MoveNavigator) (hw : nav.Wf) :
    (0 < nav.currentMoveIndex →
      MoveNavigator.previous nav =
        (⟨nav.game, ⟨sansOf (nav.game.moves.take (nav.currentMoveIndex - 1))⟩,
          nav.currentMoveIndex - 1⟩, true)) ∧
    (nav.currentMoveIndex = 0 → MoveNavigator.previous nav = (nav, false)) := by
  constructor
  · intro h
    obtain ⟨k, hk⟩ : ∃ k, nav.currentMoveIndex = k + 1 :=
      ⟨nav.currentMoveIndex - 1, by omega⟩
    have hklen : k < nav.game.moves.length := by
      have := hw.2
      omega
    have htake : nav.game.moves.take (k + 1) =
        nav.game.moves.take k ++ [nav.game.moves[k]] := by
      rw [List.take_succ, List.getElem?_eq_getElem hklen]
      rfl
    unfold MoveNavigator.previous
    rw [if_neg (by omega), hw.1, hk, htake]
    rw [show Chess.undo ⟨sansOf (nav.game.moves.take k ++ [nav.game.moves[k]])⟩ =
        some ⟨sansOf (nav.game.moves.take k)⟩ from by
      rw [show sansOf (nav.game.moves.take k ++ [nav.game.moves[k]]) =
          sansOf (nav.game.moves.take k) ++ [(nav.game.moves[k]).san] from by
        simp only [sansOf, List.map_append, List.map_cons, List.map_nil]]
      unfold Chess.undo
      rw [if_neg (by simp)]
      rw [List.dropLast_concat]]
    simp
  · intro h
    unfold MoveNavigator.previous
    rw [if_pos h]

/-! ## Claim C6 — seek is atomic -/

/-- C6.  On a cleanly-replaying game, `goToMove` (the cursor's seek) is
atomic: an out-of-range target (below 0 or above `totalPlies`) leaves the
navigator exactly as it was and reports failure, while an in-range target
produces the navigator positioned exactly at that ply (with the engine
holding the replayed prefix) and reports success — a seek is never partially
applied. -/
theorem goToMove_atomic (R : ChessRules) (nav : MoveNavigator) (i : Int)
    (hv : replaysOk R nav.game = true) :
    ((i < 0 ∨ (nav.game.moves.length : Int) < i) →
      MoveNavigator.goToMove R nav i = (nav, false)) ∧
    (0 ≤ i → i ≤ (nav.game.moves.length : Int) →
      MoveNavigator.goToMove R nav i =
        (⟨nav.game, ⟨sansOf (nav.game.moves.take i.toNat)⟩, i.toNat⟩, true) ∧
      (i.toNat : Int) = i) := by
  constructor
  · intro h
    unfold MoveNavigator.goToMove
    rw [if_pos h]
  · intro h0 h1
    refine ⟨?_, by omega⟩
    unfold MoveNavigator.goToMove
    rw [if_neg (by omega)]
    rw [show Chess.new = (⟨[]⟩ : Chess) from rfl]
    rw [goToMoveLoop_ok R [] 0 _ (replaysOkFrom_take R [] _ _ hv)]
    have hlen : (nav.game.moves.take i.toNat).length = i.toNat := by
      rw [List.length_take]
      omega
    simp [hlen]

/-- C6, witness: seeking ply 5 of the three-ply game fails leaving the cursor
at ply 1, and seeking ply 2 succeeds positioning the cursor exactly there. -/
theorem goToMove_atomic_witness :
    MoveNavigator.goToMove demoRules ⟨demoGame, ⟨["e4"]⟩, 1⟩ 5 =
      (⟨demoGame, ⟨["e4"]⟩, 1⟩, false) ∧
    MoveNavigator.goToMove demoRules ⟨demoGame, ⟨["e4"]⟩, 1⟩ 2 =
      (⟨demoGame, ⟨sansOf (demoGame.moves.take (2 : Int).toNat)⟩, (2 : Int).toNat⟩, true) := by
  refine ⟨?_, ?_⟩
  · exact (goToMove_atomic demoRules ⟨demoGame, ⟨["e4"]⟩, 1⟩ 5 (by decide)).1
      (Or.inr (by decide))
  · exact ((goToMove_atomic demoRules ⟨demoGame, ⟨["e4"]⟩, 1⟩ 2 (by decide)).2
      (by decide) (by decide)).1

/-! ## Claim C7 — advance and retreat -/

/-- C7.  For a well-formed navigator over a cleanly-replaying game:
`next` succeeds (returning `true`) exactly when `currentPly < totalPlies`,
in which case the index advances by exactly one, and otherwise the navigator
is returned untouched with `false`; symmetrically, `previous` succeeds
exactly when `currentPly > 0`, decrementing by exactly one, and otherwise
returns the untouched navigator with `false`. -/
theorem navigator_step_spec (R : ChessRules) (nav : MoveNavigator)
    (hv : replaysOk R nav.game = true) (hw : nav.Wf) :
    ((MoveNavigator.next R nav).2 = true ↔
      nav.currentMoveIndex < nav.game.moves.length) ∧
    (nav.currentMoveIndex < nav.game.moves.length →
      (MoveNavigator.next R nav).1.currentMoveIndex = nav.currentMoveIndex + 1) ∧
    (nav.game.moves.length ≤ nav.currentMoveIndex →
      MoveNavigator.next R nav = (nav, false)) ∧
    ((MoveNavigator.previous nav).2 = true ↔ 0 < nav.currentMoveIndex) ∧
    (0 < nav.currentMoveIndex →
      (MoveNavigator.previous nav).1.currentMoveIndex = nav.currentMoveIndex - 1) ∧
    (nav.currentMoveIndex = 0 → MoveNavigator.previous nav = (nav, false)) := by
  have hn := next_spec R nav hv hw
  have hp := previous_spec nav hw
  refine ⟨⟨?_, fun h => by rw [hn.1 h]⟩, fun h => by rw [hn.1 h], hn.2,
    ⟨?_, fun h => by rw [hp.1 h]⟩, fun h => by rw [hp.1 h], hp.2⟩
  · intro h
    by_contra hc
    push_neg at hc
    rw [hn.2 hc] at h
    simp at h
  · intro h
    by_contra hc
    push_neg at hc
    rw [hp.2 (by omega)] at h
    simp at h

/-- C7, witness: on the three-ply scenario game, three advances from the
start reach ply 3 with `isAtEnd` true, and a fourth advance (applied through
the step theorem at the ply-3 navigator) returns `false` leaving the ply
at 3. -/
theorem navigator_step_spec_witness :
    (runOps demoRules (MoveNavigator.new demoGame)
        [NavOp.advance, NavOp.advance, NavOp.advance]).currentMoveIndex = 3 ∧
    (runOps demoRules (MoveNavigator.new demoGame)
        [NavOp.advance, NavOp.advance, NavOp.advance]).isAtEnd = true ∧
    MoveNavigator.next demoRules ⟨demoGame, ⟨["e4", "e5", "Nf3"]⟩, 3⟩ =
      (⟨demoGame, ⟨["e4", "e5", "Nf3"]⟩, 3⟩, false) := by
  refine ⟨by decide, by decide, ?_⟩
  exact (navigator_step_spec demoRules ⟨demoGame, ⟨["e4", "e5", "Nf3"]⟩, 3⟩ (by decide)
    ⟨by decide, by decide⟩).2.2.1 (by decide)

/-! ## Claim C8 — the cursor's position never diverges from its index -/

theorem wf_runOp (R : ChessRules) (nav : MoveNavigator) (hv : replaysOk R nav.game = true)
    (hw : nav.Wf) (op : NavOp) :
    (runOp R nav op).Wf ∧ (runOp R nav op).game = nav.game := by
  cases op with
  | advance =>
    by_cases h : nav.currentMoveIndex < nav.game.moves.length
    · rw [show runOp R nav NavOp.advance = (MoveNavigator.next R nav).1 from rfl,
        (next_spec R nav hv hw).1 h]
      exact ⟨⟨rfl, h⟩, rfl⟩
    · rw [show runOp R nav NavOp.advance = (MoveNavigator.next R nav).1 from rfl,
        (next_spec R nav hv hw).2 (by omega)]
      exact ⟨hw, rfl⟩
  | retreat =>
    by_cases h : 0 < nav.currentMoveIndex
    · rw [show runOp R nav NavOp.retreat = nav.previous.1 from rfl,
        (previous_spec nav hw).1 h]
      exact ⟨⟨rfl, Nat.le_trans (Nat.sub_le _ _) hw.2⟩, rfl⟩
    · rw [show runOp R nav NavOp.retreat = nav.previous.1 from rfl,
        (previous_spec nav hw).2 (by omega)]
      exact ⟨hw, rfl⟩
  | seek i =>
    by_cases h : i < 0 ∨ (nav.game.moves.length : Int) < i
    · rw [show runOp R nav (NavOp.seek i) = (MoveNavigator.goToMove R nav i).1 from rfl,
        (goToMove_atomic R nav i hv).1 h]
      exact ⟨hw, rfl⟩
    · push_neg at h
      rw [show runOp R nav (NavOp.seek i) = (MoveNavigator.goToMove R nav i).1 from rfl,
        ((goToMove_atomic R nav i hv).2 (by omega) (by omega)).1]
      refine ⟨⟨rfl, ?_⟩, rfl⟩
      show i.toNat ≤ nav.game.moves.length
      omega
  | toStart =>
    exact ⟨⟨rfl, Nat.zero_le _⟩, rfl⟩
  | toEnd =>
    rw [show runOp R nav NavOp.toEnd = nav.goToEnd R from rfl]
    unfold MoveNavigator.goToEnd
    rw [((goToMove_atomic R nav (nav.game.moves.length : Int) hv).2 (by omega) (by omega)).1]
    refine ⟨⟨rfl, ?_⟩, rfl⟩
    show ((nav.game.moves.length : Int)).toNat ≤ nav.game.moves.length
    omega

theorem wf_runOps (R : ChessRules) (nav : MoveNavigator) (hv : replaysOk R nav.game = true)
    (hw : nav.Wf) (ops : List NavOp) :
    (runOps R nav ops).Wf ∧ (runOps R nav ops).game = nav.game := by
  induction ops generalizing nav with
  | nil => exact ⟨hw, rfl⟩
  | cons op rest ih =>
    have h1 := wf_runOp R nav hv hw op
    have h2 := ih (runOp R nav op) (by rw [h1.2]; exact hv) h1.1
    exact ⟨h2.1, h2.2.trans h1.2⟩

/-- C8.  After any sequence of cursor operations starting from a fresh
navigator over a cleanly-replaying game (with the engine agreeing with the
canonical start position on the empty replay), the board position the cursor
reports equals `positionAt(moveList, currentPly)` as computed by
`extractFEN` — the cursor behaves as if its only state were the integer
index, with the position re-derived from it. -/
theorem cursor_refines_positionAt (R : ChessRules) (g : ParsedGame)
    (hv : replaysOk R g = true) (hfen : R.fenOf [] = STARTING_FEN) (ops : List NavOp) :
    extractFEN R (runOps R (MoveNavigator.new g) ops).game
        ((runOps R (MoveNavigator.new g) ops).currentMoveIndex : Int) =
      Except.ok (MoveNavigator.getCurrentFEN R (runOps R (MoveNavigator.new g) ops)) ∧
    (runOps R (MoveNavigator.new g) ops).game = g := by
  have hnew : (MoveNavigator.new g).Wf := ⟨rfl, Nat.zero_le _⟩
  have hW := wf_runOps R (MoveNavigator.new g) hv hnew ops
  refine ⟨?_, hW.2⟩
  have hwf := hW.1
  have hgame : (runOps R (MoveNavigator.new g) ops).game = g := hW.2
  have hidx := hwf.2
  rw [extractFEN_ok_val R _ _ (Int.natCast_nonneg _) (by exact_mod_cast hidx)
    (by rw [hgame]; exact hv)]
  unfold MoveNavigator.getCurrentFEN Chess.fen
  rw [hwf.1]
  by_cases h0 : (runOps R (MoveNavigator.new g) ops).currentMoveIndex = 0
  · simp [h0, sansOf, hfen]
  · rw [if_neg (by exact_mod_cast h0)]
    simp [Int.toNat_natCast]

/-- C8, witness: the refinement theorem applied to the three-ply scenario
game over a mixed operation sequence. -/
theorem cursor_refines_positionAt_witness :
    extractFEN demoRules (runOps demoRules (MoveNavigator.new demoGame)
        [NavOp.advance, NavOp.advance, NavOp.seek 1, NavOp.retreat, NavOp.toEnd]).game
        ((runOps demoRules (MoveNavigator.new demoGame)
          [NavOp.advance, NavOp.advance, NavOp.seek 1, NavOp.retreat,
            NavOp.toEnd]).currentMoveIndex : Int) =
      Except.ok (MoveNavigator.getCurrentFEN demoRules
        (runOps demoRules (MoveNavigator.new demoGame)
          [NavOp.advance, NavOp.advance, NavOp.seek 1, NavOp.retreat, NavOp.toEnd])) ∧
    (runOps demoRules (MoveNavigator.new demoGame)
        [NavOp.advance, NavOp.advance, NavOp.seek 1, NavOp.retreat, NavOp.toEnd]).game =
      demoGame :=
  cursor_refines_positionAt demoRules demoGame (by decide) rfl
    [NavOp.advance, NavOp.advance, NavOp.seek 1, NavOp.retreat, NavOp.toEnd]

end ChessJournal
